import Mathlib

/-!
# MangaDex@Home client (`at_home.go`)

A shallow embedding of the page-delivery client of the `mangodex` package:
`NewMDHomeClientContext`, `GetChapterPageWithContext`, `FileUrl`,
`newPayload` and `reportContext`, together with the parts of the Go standard
library they call (`strings`, `strconv`, `net/url`, `net/http`, `time`,
`encoding/json`), modelled as far as the package uses them.

Go strings are modelled by Lean `String` (valid UTF-8 text), byte slices by
`List UInt8`, and every effect (clock, network, the API transport) by an
explicit environment whose answers are arbitrary.
-/

set_option autoImplicit false

namespace Mangodex

/-! ## Standard-library helpers -/

namespace strings

/-- Go `strings.Join(elems, sep)`: the elements with `sep` between neighbours. -/
def Join : List String → String → String
  | [], _ => ""
  | [a], _ => a
  | a :: b :: rest, sep => a ++ sep ++ Join (b :: rest) sep

/-- Go `strings.HasPrefix(s, p)`: `s` begins with `p`. -/
def HasPrefix (s p : String) : Bool :=
  p.data.isPrefixOf s.data

end strings

/-! ## `net/url` -/

namespace url

/-- UTF-8 bytes of one character: the bytes a Go string holds for it. -/
def utf8EncodeChar (c : Char) : List Nat :=
  let v := c.toNat
  if v ≤ 0x7f then [v]
  else if v ≤ 0x7ff then [0xc0 + v / 64, 0x80 + v % 64]
  else if v ≤ 0xffff then [0xe0 + v / 4096, 0x80 + (v / 64) % 64, 0x80 + v % 64]
  else [0xf0 + v / 262144, 0x80 + (v / 4096) % 64, 0x80 + (v / 64) % 64, 0x80 + v % 64]

/-- The bytes of a Go string. -/
def bytesOf (s : String) : List Nat :=
  s.data.flatMap utf8EncodeChar

/-- Go `url.encoding`: the part of a URL a string is escaped for. -/
inductive encoding
  | encodePath
  | encodePathSegment
  | encodeHost
  | encodeZone
  | encodeUserPassword
  | encodeQueryComponent
  | encodeFragment
  deriving DecidableEq, Repr

/-- Bytes `"!$&'()*+,;=:[]<>\""` that a host may carry unescaped. -/
def hostSafe : List Nat :=
  [33, 36, 38, 39, 40, 41, 42, 43, 44, 59, 61, 58, 91, 93, 60, 62, 34]

/-- Go `url.shouldEscape(c, mode)` on a byte `c`. -/
def shouldEscape (c : Nat) (mode : encoding) : Bool :=
  -- §2.3 Unreserved characters (alphanum)
  if (97 ≤ c ∧ c ≤ 122) ∨ (65 ≤ c ∧ c ≤ 90) ∨ (48 ≤ c ∧ c ≤ 57) then false
  else if (mode = .encodeHost ∨ mode = .encodeZone) ∧ c ∈ hostSafe then false
  -- '-', '_', '.', '~'
  else if c ∈ [45, 95, 46, 126] then false
  -- '$', '&', '+', ',', '/', ':', ';', '=', '?', '@'
  else if c ∈ [36, 38, 43, 44, 47, 58, 59, 61, 63, 64] then
    match mode with
    | .encodePath => c = 63
    | .encodePathSegment => c = 47 ∨ c = 59 ∨ c = 44 ∨ c = 63
    | .encodeUserPassword => c = 64 ∨ c = 47 ∨ c = 63 ∨ c = 58
    | .encodeQueryComponent => true
    | .encodeFragment => false
    | _ => true
  -- '!', '(', ')', '*'
  else if mode = .encodeFragment ∧ c ∈ [33, 40, 41, 42] then false
  else true

/-- Digit `n` of `"0123456789ABCDEF"`. -/
def upperhex (n : Nat) : Char :=
  "0123456789ABCDEF".data.getD n '0'

/-- One byte as written by Go `url.escape`. -/
def escapeByte (mode : encoding) (c : Nat) : List Char :=
  if shouldEscape c mode then
    if c = 32 ∧ mode = .encodeQueryComponent then ['+']
    else ['%', upperhex (c / 16), upperhex (c % 16)]
  else [Char.ofNat c]

/-- Go `url.escape` on the bytes of a string. -/
def escapeBytes (bs : List Nat) (mode : encoding) : String :=
  ⟨bs.flatMap (escapeByte mode)⟩

/-- Go `url.escape(s, mode)`. -/
def escape (s : String) (mode : encoding) : String :=
  escapeBytes (bytesOf s) mode

/-- Go `url.QueryEscape`. -/
def QueryEscape (s : String) : String :=
  escape s .encodeQueryComponent

/-- Go `url.ishex`. -/
def ishex (c : Nat) : Bool :=
  (48 ≤ c ∧ c ≤ 57) ∨ (97 ≤ c ∧ c ≤ 102) ∨ (65 ≤ c ∧ c ≤ 70)

/-- Go `url.unhex`. -/
def unhex (c : Nat) : Nat :=
  if 48 ≤ c ∧ c ≤ 57 then c - 48
  else if 97 ≤ c ∧ c ≤ 102 then c - 97 + 10
  else if 65 ≤ c ∧ c ≤ 70 then c - 65 + 10
  else 0

/-- Go `url.unescape(s, mode)` on bytes; `none` is an `EscapeError` or
`InvalidHostError`. -/
def unescape : List Nat → encoding → Option (List Nat)
  | [], _ => some []
  | 37 :: a :: b :: rest, mode =>
    if ishex a ∧ ishex b then
      if mode = .encodeHost ∧ unhex a < 8 ∧ ¬ (a = 50 ∧ b = 53) then none
      else if mode = .encodeZone ∧ ¬ (a = 50 ∧ b = 53) ∧ unhex a * 16 + unhex b ≠ 32
          ∧ shouldEscape (unhex a * 16 + unhex b) .encodeHost then none
      else (unescape rest mode).map (fun t => (unhex a * 16 + unhex b) :: t)
    else none
  | 37 :: _, _ => none
  | 43 :: rest, mode =>
    (unescape rest mode).map (fun t => (if mode = .encodeQueryComponent then 32 else 43) :: t)
  | c :: rest, mode =>
    if (mode = .encodeHost ∨ mode = .encodeZone) ∧ c < 128 ∧ shouldEscape c .encodeHost then none
    else (unescape rest mode).map (fun t => c :: t)

/-- Go `url.validEncoded(s, mode)` on bytes. -/
def validEncoded (s : List Nat) (mode : encoding) : Bool :=
  s.all fun c =>
    -- '!', '$', '&', '\'', '(', ')', '*', '+', ',', ';', '=', ':', '@', '[', ']', '%'
    if c ∈ [33, 36, 38, 39, 40, 41, 42, 43, 44, 59, 61, 58, 64, 91, 93, 37] then true
    else !shouldEscape c mode

/-- Go `url.Values`: `map[string][]string`, as an association list with
distinct keys; keys and values are byte strings. -/
abbrev Values := List (List Nat × List (List Nat))

/-- Go `m[key] = append(m[key], value)`. -/
def Values.append : Values → List Nat → List Nat → Values
  | [], k, v => [(k, [v])]
  | (k', vs) :: m, k, v => if k' = k then (k', vs ++ [v]) :: m else (k', vs) :: Values.append m k v

/-- Go `Values.Set(key, value)`: `v[key] = []string{value}`. -/
def Values.Set : Values → String → String → Values
  | [], k, v => [(bytesOf k, [bytesOf v])]
  | (k', vs) :: m, k, v =>
    if k' = bytesOf k then (k', [bytesOf v]) :: m else (k', vs) :: Values.Set m k v

/-- Pieces of `s` between occurrences of `sep`. -/
def splitOn (sep : Char) : List Char → List (List Char)
  | [] => [[]]
  | c :: rest =>
    if c = sep then [] :: splitOn sep rest
    else match splitOn sep rest with
      | [] => [[c]]
      | p :: ps => (c :: p) :: ps

/-- Go `strings.Cut(s, sep)` for a one-byte separator: before and after the
first `sep`. -/
def cut (sep : Char) : List Char → List Char × List Char
  | [] => ([], [])
  | c :: rest => if c = sep then ([], rest) else ((c :: (cut sep rest).1), (cut sep rest).2)

/-- Go `url.parseQuery(m, query)`; the error is dropped, as `URL.Query` does. -/
def parseQuery (m : Values) (query : String) : Values :=
  (splitOn '&' query.data).foldl
    (fun m key =>
      if ';' ∈ key then m
      else if key = [] then m
      else
        match unescape (bytesOf ⟨(cut '=' key).1⟩) .encodeQueryComponent with
        | none => m
        | some k =>
          match unescape (bytesOf ⟨(cut '=' key).2⟩) .encodeQueryComponent with
          | none => m
          | some v => Values.append m k v)
    m

/-- Byte-wise `<` on Go strings. -/
def bytesLt : List Nat → List Nat → Bool
  | _, [] => false
  | [], _ :: _ => true
  | a :: as, b :: bs => a < b ∨ (a = b ∧ bytesLt as bs)

/-- Insert an entry into a list sorted by key. -/
def insertSorted (e : List Nat × List (List Nat)) : Values → Values
  | [] => [e]
  | f :: m => if bytesLt f.1 e.1 then f :: insertSorted e m else e :: f :: m

/-- Entries ordered by key, as `slices.Sort(keys)` orders them. -/
def sortKeys (m : Values) : Values :=
  m.foldr insertSorted []

/-- Go `Values.Encode`: `"bar=baz&foo=quux"`, sorted by key. -/
def Values.Encode (v : Values) : String :=
  (sortKeys v).foldl
    (fun buf e =>
      e.2.foldl
        (fun buf val =>
          (if buf.length > 0 then buf ++ "&" else buf)
            ++ escapeBytes e.1 .encodeQueryComponent ++ "=" ++ escapeBytes val .encodeQueryComponent)
        buf)
    ""

/-- Go `url.Userinfo`. -/
structure Userinfo where
  username : String
  password : String
  passwordSet : Bool
  deriving DecidableEq, Repr

/-- Go `(*Userinfo).String`. -/
def Userinfo.String (u : Userinfo) : String :=
  let s := escape u.username .encodeUserPassword
  if u.passwordSet then s ++ ":" ++ escape u.password .encodeUserPassword else s

/-- Go `url.URL`. -/
structure URL where
  Scheme : String
  Opaque : String
  User : Option Userinfo
  Host : String
  Path : String
  RawPath : String
  OmitHost : Bool
  ForceQuery : Bool
  RawQuery : String
  Fragment : String
  RawFragment : String
  deriving DecidableEq, Repr

/-- Go `(*URL).Query`: `v, _ := ParseQuery(u.RawQuery)`. -/
def URL.Query (u : URL) : Values :=
  parseQuery [] u.RawQuery

/-- Go `(*URL).EscapedPath`. -/
def URL.EscapedPath (u : URL) : String :=
  if u.RawPath ≠ "" ∧ validEncoded (bytesOf u.RawPath) .encodePath
      ∧ unescape (bytesOf u.RawPath) .encodePath = some (bytesOf u.Path) then u.RawPath
  else if u.Path = "*" then "*"
  else escape u.Path .encodePath

/-- Go `(*URL).EscapedFragment`. -/
def URL.EscapedFragment (u : URL) : String :=
  if u.RawFragment ≠ "" ∧ validEncoded (bytesOf u.RawFragment) .encodeFragment
      ∧ unescape (bytesOf u.RawFragment) .encodeFragment = some (bytesOf u.Fragment) then
    u.RawFragment
  else escape u.Fragment .encodeFragment

/-- Go `(*URL).String`: reassembles the URL into a string. -/
def URL.String (u : URL) : String :=
  let buf := if u.Scheme ≠ "" then u.Scheme ++ ":" else ""
  let buf :=
    if u.Opaque ≠ "" then buf ++ u.Opaque
    else
      let buf :=
        if u.Scheme ≠ "" ∨ u.Host ≠ "" ∨ u.User ≠ none then
          if u.OmitHost ∧ u.Host = "" ∧ u.User = none then buf
          else
            let buf := if u.Host ≠ "" ∨ u.Path ≠ "" ∨ u.User ≠ none then buf ++ "//" else buf
            let buf :=
              match u.User with
              | some ui => buf ++ ui.String ++ "@"
              | none => buf
            if u.Host ≠ "" then buf ++ escape u.Host .encodeHost else buf
        else buf
      let path := u.EscapedPath
      let buf := if path ≠ "" ∧ path.data.head? ≠ some '/' ∧ u.Host ≠ "" then buf ++ "/" else buf
      let buf :=
        if buf.length = 0 ∧ ':' ∈ (cut '/' path.data).1 then buf ++ "./" else buf
      buf ++ path
  let buf := if u.ForceQuery ∨ u.RawQuery ≠ "" then buf ++ "?" ++ u.RawQuery else buf
  if u.Fragment ≠ "" then buf ++ "#" ++ u.EscapedFragment else buf

/-- RFC 3986 unreserved characters: letters, digits, `-`, `.`, `_`, `~`. -/
def isUnreserved (c : Char) : Bool :=
  (97 ≤ c.toNat ∧ c.toNat ≤ 122) ∨ (65 ≤ c.toNat ∧ c.toNat ≤ 90) ∨ (48 ≤ c.toNat ∧ c.toNat ≤ 57)
    ∨ c = '-' ∨ c = '.' ∨ c = '_' ∨ c = '~'

/-- Scheme, user and host of a URL with a host, as `URL.String` writes them
before the path: `scheme://user@host`. -/
def authority (u : URL) : String :=
  (if u.Scheme ≠ "" then u.Scheme ++ ":" else "") ++ "//"
    ++ (match u.User with
        | some ui => ui.String ++ "@"
        | none => "")
    ++ escape u.Host .encodeHost

end url

/-! ## `strconv`, `time`, `encoding/json` -/

namespace strconv

/-- Go `strconv.FormatBool`. -/
def FormatBool (b : Bool) : String :=
  if b then "true" else "false"

end strconv

namespace time

/-- Largest `time.Duration` (an `int64` count of nanoseconds). -/
def maxDuration : Int := 2 ^ 63 - 1

/-- Smallest `time.Duration`. -/
def minDuration : Int := -(2 ^ 63)

/-- Go `t.Sub(u)` on clock readings in nanoseconds: the difference, saturated
to the range of `time.Duration`. -/
def Sub (t u : Int) : Int :=
  if t - u > maxDuration then maxDuration
  else if t - u < minDuration then minDuration
  else t - u

/-- Go `Duration.Milliseconds`: `int64(d) / 1e6`, truncated toward zero. -/
def Milliseconds (d : Int) : Int :=
  Int.tdiv d 1000000

end time

namespace json

/-- Digit `n` of `"0123456789abcdef"`. -/
def hex (n : Nat) : Char :=
  "0123456789abcdef".data.getD n '0'

/-- One character of a string as Go `encoding/json` writes it with HTML
escaping on (the default of `json.Marshal`). -/
def encodeChar (c : Char) : List Char :=
  if c = Char.ofNat 34 then [Char.ofNat 92, Char.ofNat 34]
  else if c = Char.ofNat 92 then [Char.ofNat 92, Char.ofNat 92]
  else if c = Char.ofNat 8 then [Char.ofNat 92, 'b']
  else if c = Char.ofNat 12 then [Char.ofNat 92, 'f']
  else if c = Char.ofNat 10 then [Char.ofNat 92, 'n']
  else if c = Char.ofNat 13 then [Char.ofNat 92, 'r']
  else if c = Char.ofNat 9 then [Char.ofNat 92, 't']
  else if c.toNat < 32 ∨ c = '<' ∨ c = '>' ∨ c = '&' then
    [Char.ofNat 92, 'u', '0', '0', hex (c.toNat / 16), hex (c.toNat % 16)]
  else if c.toNat = 0x2028 ∨ c.toNat = 0x2029 then
    [Char.ofNat 92, 'u', '2', '0', '2', hex (c.toNat % 16)]
  else [c]

/-- A Go string as a JSON string literal. -/
def encodeString (s : String) : String :=
  "\"" ++ ⟨s.data.flatMap encodeChar⟩ ++ "\""

/-- A Go `bool` as JSON. -/
def encodeBool (b : Bool) : String :=
  if b then "true" else "false"

/-- A Go integer as JSON. -/
def encodeInt (n : Int) : String :=
  toString n

end json

/-! ## Errors, contexts and `net/http` -/

/-- Go `error` values the client can meet. -/
inductive Error
  -- context.Canceled
  | canceled
  -- context.DeadlineExceeded
  | deadlineExceeded
  -- errors.New("net/http: nil Context")
  | nilContext
  -- fmt.Errorf("net/http: invalid method %q", method)
  | invalidMethod (method : String)
  -- *url.Error: operation, URL and cause
  | urlError (Op : String) (URL : String) (Err : Error)
  -- any other error, by its message
  | other (msg : String)
  deriving DecidableEq, Repr

/-- Go `context.Context` values: the nil interface, `context.Background()`, or
a context derived with a cancel function or deadline, named by a number. -/
inductive Context
  | nil
  | background
  | derived (id : Nat)
  deriving DecidableEq, Repr

namespace http

/-- Go `http.MethodGet`. -/
def MethodGet : String := "GET"

/-- Go `http.MethodPost`. -/
def MethodPost : String := "POST"

/-- Go `http.StatusOK`. -/
def StatusOK : Int := 200

/-- Go `httpguts.IsTokenRune`, also `textproto.validHeaderFieldByte`: the
characters of an HTTP token. -/
def isToken (c : Char) : Bool :=
  ('a' ≤ c ∧ c ≤ 'z') ∨ ('A' ≤ c ∧ c ≤ 'Z') ∨ ('0' ≤ c ∧ c ≤ '9')
    -- "!#$%&'*+-.^_" backquote "|~"
    ∨ c.toNat ∈ [33, 35, 36, 37, 38, 39, 42, 43, 45, 46, 94, 95, 96, 124, 126]

/-- Go `http.validMethod`. -/
def validMethod (method : String) : Bool :=
  method.length > 0 ∧ method.data.all isToken

/-- Go `*http.Request` as built by `NewRequestWithContext`: context, method,
URL and body. -/
structure Request where
  ctx : Context
  Method : String
  URL : String
  Body : Option String
  deriving DecidableEq, Repr

/-- Go `http.Header`: `map[string][]string` with canonical keys. -/
abbrev Header := List (String × List String)

/-- Letters of a header key as `textproto.canonicalMIMEHeaderKey` sets them:
upper case at the start and after a dash, lower case elsewhere. -/
def canonLetters : Bool → List Char → List Char
  | _, [] => []
  | upper, c :: rest =>
    let c1 :=
      if upper ∧ 'a' ≤ c ∧ c ≤ 'z' then Char.ofNat (c.toNat - 32)
      else if ¬ upper ∧ 'A' ≤ c ∧ c ≤ 'Z' then Char.ofNat (c.toNat + 32)
      else c
    c1 :: canonLetters (decide (c1 = '-')) rest

/-- Go `textproto.CanonicalMIMEHeaderKey`: a key with a byte that is not a
token character is returned unchanged. -/
def CanonicalMIMEHeaderKey (s : String) : String :=
  if s.data.all isToken then ⟨canonLetters true s.data⟩ else s

/-- Go `Header.Get(key)`: the first value stored under the canonical form of
`key`, or `""`. -/
def Header.Get (h : Header) (key : String) : String :=
  match h.lookup (CanonicalMIMEHeaderKey key) with
  | some (v :: _) => v
  | _ => ""

/-- What `io.ReadAll(resp.Body)` yields: the bytes read, and the read error if
the read stopped before EOF. -/
structure Body where
  data : List UInt8
  err : Option Error
  deriving DecidableEq, Repr

/-- Go `*http.Response`. -/
structure Response where
  StatusCode : Int
  Header : Header
  Body : Body
  deriving DecidableEq, Repr

end http

namespace io

/-- Go `io.ReadAll`. -/
def ReadAll (b : http.Body) : List UInt8 × Option Error :=
  (b.data, b.err)

end io

/-- The world one call runs in: the clock, the state of derived contexts, the
verdict of `url.Parse` on a raw URL, and what the HTTP client does with a
request handed to `Do`. The client is Go's own (`&http.Client{}` with the
default transport and redirect policy); its behaviour is not modelled but
taken from the world, so every statement about all worlds covers whatever the
client does: following redirects, honouring a done context, refusing a URL. -/
structure Env where
  -- reading of time.Now()
  now : Int
  -- ctx.Err() of a derived context
  ctxErr : Nat → Option Error
  -- error of url.Parse(rawURL), if any
  urlParse : String → Option Error
  -- what client.Do returns for a request: the final response, after any
  -- redirects the client follows, or the error
  roundTrip : http.Request → Except Error http.Response
  -- the requests client.Do puts on the network while serving a request handed
  -- to it: none if it gives up before sending, several if it follows redirects
  wire : http.Request → List http.Request

/-- Go `ctx.Err()`. -/
def Context.Err (env : Env) : Context → Option Error
  | .derived id => env.ctxErr id
  | _ => none

namespace http

/-- Go `http.NewRequestWithContext`. -/
def NewRequestWithContext (env : Env) (ctx : Context) (method url : String)
    (body : Option String) : Except Error Request :=
  let method := if method = "" then "GET" else method
  if ¬ validMethod method then .error (.invalidMethod method)
  else if ctx = .nil then .error .nilContext
  else
    match env.urlParse url with
    | some e => .error e
    | none => .ok ⟨ctx, method, url, body⟩

/-- Go `http.urlErrorOp`. -/
def urlErrorOp (method : String) : String :=
  if method = "" then "Get"
  else ⟨method.data.take 1 ++ (method.data.drop 1).map Char.toLower⟩

/-- One call of Go `(*http.Client).Do` as the package sees it: what the client
returns for the request, which is the world's answer, and the log of the
request handed to the client. -/
def clientDo (env : Env) (req : Request) : Except Error Response × List Request :=
  (env.roundTrip req, [req])

end http

/-! ## `at_home.go` -/

/-- Go constant `GetMDHomeURLPath = "at-home/server/%s"`, applied to its
argument by `fmt.Sprintf`. -/
def GetMDHomeURLPath (chapterID : String) : String :=
  "at-home/server/" ++ chapterID

/-- Go constant `MDHomeReportURL`. -/
def MDHomeReportURL : String := "https://api.mangadex.network/report"

/-- Go constant `dataSaver`. -/
def dataSaver : String := "data-saver"

/-- Go constant `force443`. -/
def force443 : String := "forcePort443"

/-- Go `ChaptersData`: data for the chapter's pages. -/
structure ChaptersData where
  Hash : String
  Data : List String
  DataSaver : List String
  deriving DecidableEq, Repr

/-- Go `MDHomeServerResponse`: a response for getting a server URL. -/
structure MDHomeServerResponse where
  Result : String
  BaseURL : String
  Chapter : ChaptersData
  deriving DecidableEq, Repr

/-- Zero value of `MDHomeServerResponse` (`var r MDHomeServerResponse`). -/
def MDHomeServerResponse.zero : MDHomeServerResponse :=
  ⟨"", "", ⟨"", [], []⟩⟩

/-- Go `reportPayload`: required fields for reporting a page download result. -/
structure reportPayload where
  URL : String
  Success : Bool
  Bytes : Int
  Duration : Int
  Cached : Bool
  deriving DecidableEq, Repr

/-- Go `MDHomeClient`. The `client` field is a stateless `&http.Client{}`, its
behaviour is that of the environment; `report` is a pointer, `none` when nil;
`start` is a clock reading in nanoseconds. -/
structure MDHomeClient where
  baseURL : String
  quality : String
  hash : String
  report : Option reportPayload
  start : Int
  Pages : List String
  deriving DecidableEq, Repr

/-- One call of the API transport `s.client.RequestAndDecode(ctx, method, url,
body, &r)`. -/
structure TransportCall where
  ctx : Context
  method : String
  url : String
  body : Option String
  deriving DecidableEq, Repr

/-- The API transport of the service (`s.client`), which is outside
`at_home.go`: `RequestAndDecode` answers a call by what it leaves in `r` and
the error it returns. -/
structure Transport where
  RequestAndDecode : TransportCall → MDHomeServerResponse → MDHomeServerResponse × Option Error

/-- Outcome of `NewMDHomeClientContext`: the returned pointer and error, and
the calls made on the transport. -/
structure NewClientResult where
  client : Option MDHomeClient
  err : Option Error
  calls : List TransportCall
  deriving DecidableEq, Repr

/-- The URL `NewMDHomeClientContext` asks for. `BaseAPI` is the parsed form of
the package constant `BaseAPI` (`u, _ := url.Parse(BaseAPI)`). -/
def serverURL (BaseAPI : url.URL) (chapterID : String) (forcePort443 : Bool) : url.URL :=
  let u := BaseAPI
  let u := { u with Path := GetMDHomeURLPath chapterID }
  -- Set query parameters
  let q := u.Query
  let q := q.Set force443 (strconv.FormatBool forcePort443)
  { u with RawQuery := q.Encode }

/-- Go `(*AtHomeService).NewMDHomeClientContext`. -/
def NewMDHomeClientContext (BaseAPI : url.URL) (s : Transport) (ctx : Context)
    (chapterID : String) (quality : String) (forcePort443 : Bool) : NewClientResult :=
  let u := serverURL BaseAPI chapterID forcePort443
  let call : TransportCall := ⟨ctx, http.MethodGet, u.String, none⟩
  let (r, err) := s.RequestAndDecode call MDHomeServerResponse.zero
  match err with
  | some e => ⟨none, some e, [call]⟩
  | none =>
    -- Set the required pages data for required quality.
    let pages := if quality = dataSaver then r.Chapter.DataSaver else r.Chapter.Data
    ⟨some
        { baseURL := r.BaseURL
          quality := quality
          hash := r.Chapter.Hash
          report := none
          start := 0
          Pages := pages },
      none, [call]⟩

/-- Go `(*AtHomeService).NewMDHomeClient`. -/
def NewMDHomeClient (BaseAPI : url.URL) (s : Transport) (chapterID : String)
    (quality : String) (forcePort443 : Bool) : NewClientResult :=
  NewMDHomeClientContext BaseAPI s .background chapterID quality forcePort443

/-- Go `newPayload`. -/
def newPayload (path : String) : reportPayload :=
  { URL := path, Success := false, Bytes := 0, Duration := 0, Cached := false }

/-- Go `(*MDHomeClient).FileUrl`. -/
def MDHomeClient.FileUrl (c : MDHomeClient) (filename : String) : String :=
  strings.Join [c.baseURL, c.quality, c.hash, filename] "/"

/-- A goroutine started by a `go` statement. -/
inductive Goroutine
  | reportContext (ctx : Context)
  deriving DecidableEq, Repr

/-- Outcome of `GetChapterPageWithContext`: the two results, the client
afterwards, the requests handed to `c.client.Do`, and the goroutines
started. -/
structure FetchResult where
  fileData : List UInt8
  err : Option Error
  client : MDHomeClient
  sent : List http.Request
  spawned : List Goroutine
  deriving DecidableEq, Repr

/-- The JSON object `encoding/json` writes for a `reportPayload`: the struct
has no field tags, so the keys are the field names, in declaration order. -/
def json.encodePayload (r : reportPayload) : String :=
  "\x7b\"URL\":" ++ json.encodeString r.URL
    ++ ",\"Success\":" ++ json.encodeBool r.Success
    ++ ",\"Bytes\":" ++ json.encodeInt r.Bytes
    ++ ",\"Duration\":" ++ json.encodeInt r.Duration
    ++ ",\"Cached\":" ++ json.encodeBool r.Cached ++ "\x7d"

/-- Go `json.Marshal` of a `*reportPayload`; strings, booleans and integers
always encode. -/
def json.Marshal (r : reportPayload) : Except Error String :=
  .ok (json.encodePayload r)

/-- Go `(*MDHomeClient).GetChapterPageWithContext`. The deferred function runs
on every return and starts `reportContext(ctx)` as a goroutine; `c.report` is
the payload allocated at the top of the call; the deferred `resp.Body.Close()`
does not touch the results. -/
def MDHomeClient.GetChapterPageWithContext (env : Env) (c : MDHomeClient) (ctx : Context)
    (filename : String) : FetchResult :=
  -- Send report in the background.
  let deferred : List Goroutine := [.reportContext ctx]
  let path := strings.Join [c.baseURL, c.quality, c.hash, filename] "/"
  let report := newPayload path
  let c := { c with report := some report }
  -- time will be slightly inflated, but w/e
  let c := { c with start := env.now }
  match http.NewRequestWithContext env ctx http.MethodGet path none with
  | .error e => ⟨[], some e, c, [], deferred⟩
  | .ok req =>
    match http.clientDo env req with
    | (.error e, sent) => ⟨[], some e, c, sent, deferred⟩
    | (.ok resp, sent) =>
      -- Read file data.
      let (fileData, err) := io.ReadAll resp.Body
      let report := { report with Bytes := fileData.length }
      let report :=
        { report with Success := decide (err = none) && decide (resp.StatusCode = http.StatusOK) }
      let report :=
        { report with Cached := strings.HasPrefix (resp.Header.Get "X-Cache") "HIT" }
      ⟨fileData, err, { c with report := some report }, sent, deferred⟩

/-- Go `(*MDHomeClient).GetChapterPage`. -/
def MDHomeClient.GetChapterPage (env : Env) (c : MDHomeClient) (filename : String) :
    FetchResult :=
  c.GetChapterPageWithContext env .background filename

/-- Outcome of `reportContext`: the client afterwards, the requests handed to
`c.client.Do`, whether the call stopped on a nil `c.report`, and the requests
the HTTP client put on the network for it. -/
structure ReportResult where
  client : MDHomeClient
  sent : List http.Request
  nilDeref : Bool
  wire : List http.Request
  deriving DecidableEq, Repr

/-- Go `(*MDHomeClient).reportContext`: report success of getting chapter page
data. -/
def MDHomeClient.reportContext (env : Env) (c : MDHomeClient) (ctx : Context) : ReportResult :=
  match c.report with
  | none => ⟨c, [], true, []⟩
  | some report =>
    let report := { report with Duration := time.Milliseconds (time.Sub env.now c.start) }
    let c := { c with report := some report }
    match json.Marshal report with
    | .error _ => ⟨c, [], false, []⟩
    | .ok rBytes =>
      match http.NewRequestWithContext env ctx http.MethodPost MDHomeReportURL (some rBytes) with
      | .error _ => ⟨c, [], false, []⟩
      | .ok req => ⟨c, (http.clientDo env req).2, false, env.wire req⟩

/-- A parsed `BaseAPI` of the form `https://host`. -/
def apiBase : url.URL :=
  ⟨"https", "", none, "api.mangadex.org", "", "", false, false, "", "", ""⟩

/-- The resolution response of the concrete scenario. -/
def mockResponse : MDHomeServerResponse :=
  ⟨"ok", "https://cdn.example", ⟨"h1", ["1.png", "2.png"], ["1s.png"]⟩⟩

/-- A transport that decodes `mockResponse` for every call. -/
def mockTransport : Transport :=
  ⟨fun _ _ => (mockResponse, none)⟩

/-- A transport that fails every call, leaving `r` half filled. -/
def failingTransport : Transport :=
  ⟨fun _ r => ({ r with BaseURL := "https://cdn.example" }, some (Error.other "unexpected status 503"))⟩

/-- A session on the mock delivery node, data-saver quality. -/
def mockClient : MDHomeClient :=
  ⟨"https://cdn.example", "data-saver", "h1", none, 0, ["1s.png"]⟩

/-- Four bytes of page data. -/
def pageBytes : List UInt8 := [137, 80, 78, 71]

/-- A world at clock reading `now` in which no context is done, every URL
parses, and the client sends every request once and comes back with `resp`. -/
def nodeEnv (now : Int) (resp : http.Response) : Env :=
  ⟨now, fun _ => none, fun _ => none, fun _ => .ok resp, fun q => [q]⟩

/-- Status 200, four bytes, `X-Cache: HIT-somehost`. -/
def hitResponse : http.Response :=
  ⟨200, [("X-Cache", ["HIT-somehost"])], ⟨pageBytes, none⟩⟩

/-- Status 404 with the body `404`. -/
def notFoundResponse : http.Response :=
  ⟨404, [("Content-Type", ["text/plain"])], ⟨[52, 48, 52], none⟩⟩

/-- Status 200 whose body breaks off after two bytes. -/
def truncatedResponse : http.Response :=
  ⟨200, [("X-Cache", ["MISS"])], ⟨[137, 80], some (Error.other "unexpected EOF")⟩⟩

/-- A world in which the delivery node of the mock session is unreachable:
the client answers with the `*url.Error` it builds for the page request,
`Get "https://cdn.example/data-saver/h1/1s.png": connection refused`, and
nothing goes out. -/
def downEnv : Env :=
  ⟨5000000, fun _ => none, fun _ => none,
    fun _ =>
      .error (.urlError (http.urlErrorOp "GET") "https://cdn.example/data-saver/h1/1s.png"
        (Error.other "connection refused")),
    fun _ => []⟩

/-- One call on a session, with the world it runs in. -/
inductive Call
  | GetChapterPageWithContext (env : Env) (ctx : Context) (filename : String)
  | FileUrl (filename : String)
  | reportContext (env : Env) (ctx : Context)

/-- The session after one call. `FileUrl` only reads the session. -/
def Call.apply (c : MDHomeClient) : Call → MDHomeClient
  | .GetChapterPageWithContext env ctx filename =>
    (c.GetChapterPageWithContext env ctx filename).client
  | .FileUrl _ => c
  | .reportContext env ctx => (c.reportContext env ctx).client

/-- The session after a sequence of calls, one after the other. -/
def runCalls (c : MDHomeClient) (calls : List Call) : MDHomeClient :=
  calls.foldl Call.apply c

/-- A world in which the delivery node answers every GET with `hitResponse`
and the report endpoint is unreachable. -/
def reportDownEnv : Env :=
  ⟨1000, fun _ => none, fun _ => none,
    fun q =>
      if q.Method = "POST" then
        .error (.urlError "Post" "https://api.mangadex.network/report"
          (Error.other "connection refused"))
      else .ok hitResponse,
    fun q => if q.Method = "POST" then [] else [q]⟩

/-- A world in which the delivery node answers every GET with `hitResponse`
and the report endpoint answers with status 500. -/
def reportRejectedEnv : Env :=
  ⟨1000, fun _ => none, fun _ => none,
    fun q => if q.Method = "POST" then .ok ⟨500, [], ⟨[], none⟩⟩ else .ok hitResponse,
    fun q => [q]⟩

example : url.QueryEscape "a b&c=d/é~" = "a+b%26c%3Dd%2F%C3%A9~" := by decide

example : url.escape "at-home/server/abc?x" .encodePath = "at-home/server/abc%3Fx" := by decide

example : (url.parseQuery [] "b=2&a=1&b=%20x&&c;d=1&e").Encode = "a=1&b=2&b=+x&e=" := by decide

example : ((url.parseQuery [] "").Set "forcePort443" "true").Encode = "forcePort443=true" := by
  decide

example : url.URL.String ⟨"https", "", none, "api.mangadex.org", "at-home/server/abc", "", false,
    false, "forcePort443=false", "", ""⟩
    = "https://api.mangadex.org/at-home/server/abc?forcePort443=false" := by
  decide

example : http.Header.Get [("X-Cache", ["HIT-somehost"])] "X-Cache" = "HIT-somehost" := by decide

example : http.CanonicalMIMEHeaderKey "x-cAChe" = "X-Cache" := by decide

example : http.urlErrorOp "POST" = "Post" := by decide

example : time.Milliseconds (time.Sub 2500000 1000000) = 1 := by decide

example : json.encodePayload ⟨"https://cdn.example/data/h1/1.png", true, 4, 12, false⟩
    = "\x7b\"URL\":\"https://cdn.example/data/h1/1.png\",\"Success\":true,\"Bytes\":4,\"Duration\":12,\"Cached\":false\x7d" := by
  decide

/-! ## Page URLs -/

/-- C1: for every session and every filename `f`, `FileUrl f` is
`baseURL + "/" + quality + "/" + hash + "/" + f`, whatever the quality segment
(`"data-saver"` or any other); the function is total, with no error result. -/
theorem FileUrl_eq_join (c : MDHomeClient) (f : String) :
    c.FileUrl f = c.baseURL ++ "/" ++ c.quality ++ "/" ++ c.hash ++ "/" ++ f := by
  simp [MDHomeClient.FileUrl, strings.Join, String.append_assoc]

/-! ## Resolving a chapter -/

/-- The one call `NewMDHomeClientContext` makes on the transport. -/
theorem NewMDHomeClientContext_calls (BaseAPI : url.URL) (s : Transport) (ctx : Context)
    (chapterID quality : String) (forcePort443 : Bool) :
    (NewMDHomeClientContext BaseAPI s ctx chapterID quality forcePort443).calls
      = [⟨ctx, http.MethodGet, (serverURL BaseAPI chapterID forcePort443).String, none⟩] := by
  unfold NewMDHomeClientContext
  simp only []
  split <;> rfl

/-- C2: when `RequestAndDecode` decodes a response `r` without error, the
returned session has `baseURL = r.BaseURL`, `hash = r.Chapter.Hash`, the given
quality, and as `Pages` the list `r.Chapter.DataSaver` when the quality is
`"data-saver"` and `r.Chapter.Data` for any other quality, in the same order;
its page URLs are built from these. -/
theorem NewMDHomeClientContext_session (BaseAPI : url.URL) (s : Transport) (ctx : Context)
    (chapterID quality : String) (forcePort443 : Bool) (r : MDHomeServerResponse)
    (h : s.RequestAndDecode
        ⟨ctx, http.MethodGet, (serverURL BaseAPI chapterID forcePort443).String, none⟩
        MDHomeServerResponse.zero = (r, none)) :
    ∃ c : MDHomeClient,
      (NewMDHomeClientContext BaseAPI s ctx chapterID quality forcePort443).client = some c
      ∧ (NewMDHomeClientContext BaseAPI s ctx chapterID quality forcePort443).err = none
      ∧ c.baseURL = r.BaseURL ∧ c.hash = r.Chapter.Hash ∧ c.quality = quality
      ∧ (quality = "data-saver" → c.Pages = r.Chapter.DataSaver)
      ∧ (quality ≠ "data-saver" → c.Pages = r.Chapter.Data)
      ∧ ∀ f : String,
          c.FileUrl f = r.BaseURL ++ "/" ++ quality ++ "/" ++ r.Chapter.Hash ++ "/" ++ f := by
  refine ⟨⟨r.BaseURL, quality, r.Chapter.Hash, none, 0,
    if quality = dataSaver then r.Chapter.DataSaver else r.Chapter.Data⟩, ?_, ?_, rfl, rfl, rfl,
    ?_, ?_, ?_⟩
  · simp [NewMDHomeClientContext, h]
  · simp [NewMDHomeClientContext, h]
  · intro hq
    simp [dataSaver, hq]
  · intro hq
    simp [dataSaver, hq]
  · intro f
    simp [MDHomeClient.FileUrl, strings.Join, String.append_assoc]

/-- C2, on the concrete scenario: `Resolve("abc123", "standard", false)` against
the mock response yields pages `["1.png", "2.png"]` and the page URL
`https://cdn.example/standard/h1/1.png`. -/
theorem NewMDHomeClientContext_session_witness :
    ∃ c : MDHomeClient,
      (NewMDHomeClientContext apiBase mockTransport .background "abc123" "standard" false).client
        = some c
      ∧ c.Pages = ["1.png", "2.png"]
      ∧ c.FileUrl "1.png" = "https://cdn.example/standard/h1/1.png" := by
  obtain ⟨c, hc, _, _, _, _, _, hp, hf⟩ :=
    NewMDHomeClientContext_session apiBase mockTransport .background "abc123" "standard" false
      mockResponse rfl
  exact ⟨c, hc, hp (by decide), by rw [hf]; decide⟩

/-- C3: when `RequestAndDecode` returns an error `e`, `NewMDHomeClientContext`
returns no session and exactly `e`, after that single call on the transport;
it returns a session with a nil error exactly when `RequestAndDecode` returned
no error. -/
theorem NewMDHomeClientContext_error (BaseAPI : url.URL) (s : Transport) (ctx : Context)
    (chapterID quality : String) (forcePort443 : Bool) :
    (∀ e : Error,
      (s.RequestAndDecode
          ⟨ctx, http.MethodGet, (serverURL BaseAPI chapterID forcePort443).String, none⟩
          MDHomeServerResponse.zero).2 = some e →
        (NewMDHomeClientContext BaseAPI s ctx chapterID quality forcePort443).client = none
        ∧ (NewMDHomeClientContext BaseAPI s ctx chapterID quality forcePort443).err = some e
        ∧ (NewMDHomeClientContext BaseAPI s ctx chapterID quality forcePort443).calls.length = 1)
    ∧ (((NewMDHomeClientContext BaseAPI s ctx chapterID quality forcePort443).client.isSome
          ∧ (NewMDHomeClientContext BaseAPI s ctx chapterID quality forcePort443).err = none)
        ↔ (s.RequestAndDecode
            ⟨ctx, http.MethodGet, (serverURL BaseAPI chapterID forcePort443).String, none⟩
            MDHomeServerResponse.zero).2 = none) := by
  unfold NewMDHomeClientContext
  simp only []
  cases h : (s.RequestAndDecode
      ⟨ctx, http.MethodGet, (serverURL BaseAPI chapterID forcePort443).String, none⟩
      MDHomeServerResponse.zero).2 <;> simp [h]

/-- C3, on a transport that fails: no session, the transport's error, one
call. -/
theorem NewMDHomeClientContext_error_witness :
    (NewMDHomeClientContext apiBase failingTransport .background "abc123" "standard" false).client
        = none
    ∧ (NewMDHomeClientContext apiBase failingTransport .background "abc123" "standard" false).err
        = some (Error.other "unexpected status 503")
    ∧ (NewMDHomeClientContext apiBase failingTransport .background "abc123" "standard"
        false).calls.length = 1 :=
  (NewMDHomeClientContext_error apiBase failingTransport .background "abc123" "standard"
    false).1 (Error.other "unexpected status 503") rfl

/-! ## The resolution request -/

namespace url

/-- An ASCII character is one byte. -/
theorem utf8EncodeChar_ascii (c : Char) (h : c.toNat ≤ 127) : utf8EncodeChar c = [c.toNat] := by
  simp [utf8EncodeChar, h]

/-- A string of ASCII characters none of which `shouldEscape` flags is left
unchanged by `escape`. -/
theorem escape_eq_self (mode : encoding) (l : List Char)
    (h : ∀ c ∈ l, c.toNat ≤ 127 ∧ shouldEscape c.toNat mode = false) :
    escape ⟨l⟩ mode = ⟨l⟩ := by
  have key : (l.flatMap utf8EncodeChar).flatMap (escapeByte mode) = l := by
    induction l with
    | nil => rfl
    | cons c rest ih =>
      have hc := h c (List.mem_cons_self _ _)
      have ih1 := ih (fun d hd => h d (List.mem_cons_of_mem _ hd))
      simp only [List.flatMap_cons, List.flatMap_append, utf8EncodeChar_ascii c hc.1, ih1]
      simp [escapeByte, hc.2, List.flatMap]
  simp [escape, escapeBytes, bytesOf, key]

/-- Unreserved characters are ASCII and are not escaped in a path. -/
theorem shouldEscape_unreserved (c : Char) (h : isUnreserved c = true) :
    c.toNat ≤ 127 ∧ shouldEscape c.toNat .encodePath = false := by
  simp only [isUnreserved, Bool.decide_or, Bool.or_eq_true, decide_eq_true_eq, Bool.decide_and,
    Bool.and_eq_true] at h
  rcases h with h | h | h | h | h | h | h
  · refine ⟨by omega, ?_⟩
    simp [shouldEscape, h]
  · refine ⟨by omega, ?_⟩
    simp [shouldEscape, h]
  · refine ⟨by omega, ?_⟩
    simp [shouldEscape, h]
  all_goals (subst h; decide)

/-- Without a separator, `cut` keeps the whole string in front. -/
theorem cut_no_sep (sep : Char) (l : List Char) (h : sep ∉ l) : (cut sep l).1 = l := by
  induction l with
  | nil => rfl
  | cons c rest ih =>
    have hne : c ≠ sep := fun e => h (e ▸ List.mem_cons_self _ _)
    have := ih (fun hm => h (List.mem_cons_of_mem _ hm))
    simp [cut, hne, this]

/-- The escaped path of a URL whose path is `at-home/server/` followed by
unreserved characters, and which has no raw-path hint, is that path. -/
theorem escapedPath_server (u : URL) (l : List Char) (hRaw : u.RawPath = "")
    (hPath : u.Path = "at-home/server/" ++ ⟨l⟩) (hl : ∀ c ∈ l, isUnreserved c = true) :
    u.EscapedPath = "at-home/server/" ++ ⟨l⟩ := by
  have hstar : ("at-home/server/" ++ (⟨l⟩ : String)) ≠ "*" := by
    intro h
    have := congrArg String.data h
    simp [String.data_append] at this
  have hesc : escape ("at-home/server/" ++ (⟨l⟩ : String)) .encodePath
      = "at-home/server/" ++ ⟨l⟩ := by
    have : ("at-home/server/" ++ (⟨l⟩ : String)) = ⟨"at-home/server/".data ++ l⟩ := rfl
    rw [this]
    apply escape_eq_self
    intro c hc
    rcases List.mem_append.1 hc with h | h
    · clear hc
      revert c
      decide
    · exact shouldEscape_unreserved c (hl c h)
  simp [URL.EscapedPath, hRaw, hPath, hstar, hesc]

/-- The string form of a URL with a host and neither opaque part nor fragment:
authority, a `/` before a rootless path, the escaped path, and the query. -/
theorem String_of_host (u : URL) (hO : u.Opaque = "") (hH : u.Host ≠ "") (hF : u.Fragment = "")
    (hc : ':' ∉ (cut '/' u.EscapedPath.data).1) :
    u.String = authority u
      ++ (if u.EscapedPath ≠ "" ∧ u.EscapedPath.data.head? ≠ some '/' then "/" else "")
      ++ u.EscapedPath
      ++ (if u.ForceQuery ∨ u.RawQuery ≠ "" then "?" ++ u.RawQuery else "") := by
  unfold URL.String authority
  simp only [hO, hH, hF, hc, ne_eq, not_true_eq_false, not_false_eq_true, if_true, if_false,
    true_or, or_true, and_true, and_false, false_and, true_and]
  cases hU : u.User <;> by_cases hS : u.Scheme = "" <;> by_cases hq : (u.ForceQuery ∨ ¬ u.RawQuery = "") <;>
    by_cases hp : (¬ u.EscapedPath = "" ∧ ¬ u.EscapedPath.data.head? = some '/') <;>
    simp [hS, hq, hp, String.append_assoc]

end url

/-- With no query in `BaseAPI`, the request URL is `BaseAPI` with the path and
the single query parameter set. -/
theorem serverURL_eq (BaseAPI : url.URL) (chapterID : String) (forcePort443 : Bool)
    (hQuery : BaseAPI.RawQuery = "") :
    serverURL BaseAPI chapterID forcePort443
      = { BaseAPI with
          Path := "at-home/server/" ++ chapterID
          RawQuery := "forcePort443=" ++ (if forcePort443 then "true" else "false") } := by
  have hq : ∀ b : Bool, ((url.parseQuery [] "").Set force443 (strconv.FormatBool b)).Encode
      = "forcePort443=" ++ (if b then "true" else "false") := by decide
  simp [serverURL, url.URL.Query, hQuery, hq, GetMDHomeURLPath]

/-- The string form of a URL `v` that differs from a host-only URL `u` by the
path `at-home/server/…` and a query `q`. -/
theorem String_server (u v : url.URL) (l : List Char) (q : String)
    (hOpaque : u.Opaque = "") (hHost : u.Host ≠ "") (hPath : u.Path = "")
    (hRawPath : u.RawPath = "") (hQuery : u.RawQuery = "")
    (hForce : u.ForceQuery = false) (hFrag : u.Fragment = "")
    (hl : ∀ c ∈ l, url.isUnreserved c = true)
    (h1 : v.Scheme = u.Scheme) (h2 : v.Opaque = u.Opaque) (h3 : v.User = u.User)
    (h4 : v.Host = u.Host) (h5 : v.RawPath = u.RawPath) (h6 : v.ForceQuery = u.ForceQuery)
    (h7 : v.Fragment = u.Fragment) (h8 : v.Path = "at-home/server/" ++ ⟨l⟩)
    (h9 : v.RawQuery = q) (hq : q ≠ "") :
    v.String = u.String ++ "/at-home/server/" ++ ⟨l⟩ ++ "?" ++ q := by
  have hp := url.escapedPath_server v l (h5.trans hRawPath) h8 hl
  have hb : u.EscapedPath = "" := by
    simp [url.URL.EscapedPath, hRawPath, hPath]
    decide
  have hd : ("at-home/server/" ++ (⟨l⟩ : String)).data
      = 'a' :: 't' :: '-' :: 'h' :: 'o' :: 'm' :: 'e' :: '/' :: ("server/".data ++ l) := rfl
  have hne : ("at-home/server/" ++ (⟨l⟩ : String)) ≠ "" := by
    intro h
    have := congrArg String.data h
    rw [hd] at this
    simp at this
  rw [url.String_of_host v (h2.trans hOpaque) (h4 ▸ hHost) (h7.trans hFrag)
      (by rw [hp, hd]; simp [url.cut]),
    url.String_of_host u hOpaque hHost hFrag (by rw [hb]; simp [url.cut])]
  have hs : ∀ x : String, "/" ++ ("at-home/server/" ++ x) = "/at-home/server/" ++ x :=
    fun x => by rw [← String.append_assoc]; rfl
  simp only [hp, hb, hd, hne, hQuery, hForce, h9, h6, hq]
  simp [url.authority, h1, h3, h4, String.append_assoc, hne, hq, hs]

/-- The request URL as a string. -/
theorem serverURL_String (BaseAPI : url.URL) (chapterID : String) (forcePort443 : Bool)
    (hOpaque : BaseAPI.Opaque = "") (hHost : BaseAPI.Host ≠ "") (hPath : BaseAPI.Path = "")
    (hRawPath : BaseAPI.RawPath = "") (hQuery : BaseAPI.RawQuery = "")
    (hForce : BaseAPI.ForceQuery = false) (hFrag : BaseAPI.Fragment = "")
    (hID : ∀ c ∈ chapterID.data, url.isUnreserved c = true) :
    (serverURL BaseAPI chapterID forcePort443).String
      = BaseAPI.String ++ "/at-home/server/" ++ chapterID ++ "?forcePort443="
          ++ (if forcePort443 then "true" else "false") := by
  rw [serverURL_eq _ _ _ hQuery]
  obtain ⟨l⟩ := chapterID
  have h := String_server BaseAPI
    { BaseAPI with
      Path := "at-home/server/" ++ ⟨l⟩
      RawQuery := "forcePort443=" ++ (if forcePort443 then "true" else "false") }
    l ("forcePort443=" ++ (if forcePort443 then "true" else "false"))
    hOpaque hHost hPath hRawPath hQuery hForce hFrag hID
    rfl rfl rfl rfl rfl rfl rfl rfl rfl (by cases forcePort443 <;> decide)
  rw [h]
  have hs : ∀ x : String, "?" ++ ("forcePort443=" ++ x) = "?forcePort443=" ++ x :=
    fun x => by rw [← String.append_assoc]; rfl
  simp [String.append_assoc, hs]

/-- C4: with `BaseAPI` of the form `scheme://host` (no path, query or fragment)
and a chapter ID of URL-unreserved characters, `NewMDHomeClientContext` makes
exactly one call on the transport: method GET, no body, the caller's context,
and the URL `{BaseAPI}/at-home/server/{chapterID}?forcePort443={b}` with `{b}`
being `true` or `false`. -/
theorem NewMDHomeClientContext_request (BaseAPI : url.URL) (s : Transport) (ctx : Context)
    (chapterID quality : String) (forcePort443 : Bool)
    (hOpaque : BaseAPI.Opaque = "") (hHost : BaseAPI.Host ≠ "") (hPath : BaseAPI.Path = "")
    (hRawPath : BaseAPI.RawPath = "") (hQuery : BaseAPI.RawQuery = "")
    (hForce : BaseAPI.ForceQuery = false) (hFrag : BaseAPI.Fragment = "")
    (hID : ∀ c ∈ chapterID.data, url.isUnreserved c = true) :
    (NewMDHomeClientContext BaseAPI s ctx chapterID quality forcePort443).calls
      = [⟨ctx, "GET",
          BaseAPI.String ++ "/at-home/server/" ++ chapterID ++ "?forcePort443="
            ++ (if forcePort443 then "true" else "false"),
          none⟩] := by
  rw [NewMDHomeClientContext_calls,
    serverURL_String BaseAPI chapterID forcePort443 hOpaque hHost hPath hRawPath hQuery hForce
      hFrag hID]
  rfl

/-- C4, on `https://api.mangadex.org` and chapter `abc123`: the one call is a
GET of `https://api.mangadex.org/at-home/server/abc123?forcePort443=true`. -/
theorem NewMDHomeClientContext_request_witness :
    apiBase.String = "https://api.mangadex.org"
    ∧ (NewMDHomeClientContext apiBase mockTransport (.derived 1) "abc123" "standard" true).calls
      = [⟨.derived 1, "GET", "https://api.mangadex.org/at-home/server/abc123?forcePort443=true",
          none⟩] := by
  refine ⟨by decide, ?_⟩
  rw [NewMDHomeClientContext_request apiBase mockTransport (.derived 1) "abc123" "standard" true
    rfl (by decide) rfl rfl rfl rfl rfl (by decide)]
  decide

/-! ## Fetching a page -/

/-- The request `GetChapterPageWithContext` builds when the context is not nil
and the page URL parses. -/
theorem NewRequestWithContext_get (env : Env) (ctx : Context) (u : String)
    (hctx : ctx ≠ .nil) (hurl : env.urlParse u = none) :
    http.NewRequestWithContext env ctx http.MethodGet u none = .ok ⟨ctx, "GET", u, none⟩ := by
  have hm : http.validMethod "GET" = true := by decide
  simp [http.NewRequestWithContext, http.MethodGet, hm, hctx, hurl]

/-- The request of a fetch, as far as it depends on the world: only through
the verdict of `url.Parse` on the page URL. -/
theorem NewRequestWithContext_get_eq (env : Env) (ctx : Context) (u : String) :
    http.NewRequestWithContext env ctx http.MethodGet u none
      = if ctx = .nil then .error .nilContext
        else
          match env.urlParse u with
          | some e => .error e
          | none => .ok ⟨ctx, "GET", u, none⟩ := by
  have hm : http.validMethod "GET" = true := by decide
  simp [http.NewRequestWithContext, http.MethodGet, hm]

/-- A fetch whose request reaches the delivery node and gets a response: the
results are what `io.ReadAll` gives, and the report is filled from the
response. -/
theorem GetChapterPageWithContext_response (env : Env) (c : MDHomeClient) (ctx : Context)
    (f : String) (resp : http.Response)
    (hctx : ctx ≠ .nil) (hurl : env.urlParse (c.FileUrl f) = none)
    (_hlive : ctx.Err env = none)
    (hresp : env.roundTrip ⟨ctx, "GET", c.FileUrl f, none⟩ = .ok resp) :
    c.GetChapterPageWithContext env ctx f
      = ⟨resp.Body.data, resp.Body.err,
          { c with
            report := some
              { URL := c.FileUrl f
                Success := decide (resp.Body.err = none) && decide (resp.StatusCode = 200)
                Bytes := resp.Body.data.length
                Duration := 0
                Cached := strings.HasPrefix (resp.Header.Get "X-Cache") "HIT" }
            start := env.now },
          [⟨ctx, "GET", c.FileUrl f, none⟩], [.reportContext ctx]⟩ := by
  have hreq := NewRequestWithContext_get env ctx (c.FileUrl f) hctx hurl
  unfold MDHomeClient.FileUrl at hreq hurl hresp
  have hdo : http.clientDo env ⟨ctx, "GET", strings.Join [c.baseURL, c.quality, c.hash, f] "/", none⟩
      = (.ok resp, [⟨ctx, "GET", strings.Join [c.baseURL, c.quality, c.hash, f] "/", none⟩]) := by
    simp [http.clientDo, hresp]
  simp [MDHomeClient.GetChapterPageWithContext, hreq, hdo, io.ReadAll, newPayload,
    MDHomeClient.FileUrl, http.StatusOK]

/-- `strings.HasPrefix s p` holds exactly when `s` is `p` followed by some
text. -/
theorem HasPrefix_iff (s p : String) : strings.HasPrefix s p = true ↔ ∃ t : String, s = p ++ t := by
  unfold strings.HasPrefix
  rw [List.isPrefixOf_iff_prefix]
  constructor
  · rintro ⟨t, ht⟩
    exact ⟨⟨t⟩, by apply String.ext; simp [String.data_append, ht]⟩
  · rintro ⟨t, rfl⟩
    exact ⟨t.data, by simp [String.data_append]⟩

/-- C5: when the delivery node answers with status `s`, headers `h` and a body
read completely as `N` bytes, the report left by `GetChapterPageWithContext`
has `url = FileUrl f`, `bytes = N`, `success = (s == 200)` and
`cached = (X-Cache begins with "HIT")`, the comparison being case sensitive:
an absent header, `hit` and `MISS` give false, `HIT-somehost` gives true. -/
theorem GetChapterPageWithContext_report (env : Env) (c : MDHomeClient) (ctx : Context)
    (f : String) (resp : http.Response)
    (hctx : ctx ≠ .nil) (hurl : env.urlParse (c.FileUrl f) = none)
    (hlive : ctx.Err env = none)
    (hresp : env.roundTrip ⟨ctx, "GET", c.FileUrl f, none⟩ = .ok resp)
    (hread : resp.Body.err = none) :
    (c.GetChapterPageWithContext env ctx f).client.report
        = some
          { URL := c.FileUrl f
            Success := decide (resp.StatusCode = 200)
            Bytes := resp.Body.data.length
            Duration := 0
            Cached := strings.HasPrefix (resp.Header.Get "X-Cache") "HIT" }
    ∧ (strings.HasPrefix (resp.Header.Get "X-Cache") "HIT" = true
        ↔ ∃ t : String, resp.Header.Get "X-Cache" = "HIT" ++ t)
    ∧ (resp.Header.lookup "X-Cache" = none →
        strings.HasPrefix (resp.Header.Get "X-Cache") "HIT" = false)
    ∧ strings.HasPrefix "hit" "HIT" = false
    ∧ strings.HasPrefix "MISS" "HIT" = false
    ∧ strings.HasPrefix "HIT-somehost" "HIT" = true := by
  refine ⟨?_, HasPrefix_iff _ _, ?_, by decide, by decide, by decide⟩
  · rw [GetChapterPageWithContext_response env c ctx f resp hctx hurl hlive hresp]
    simp [hread]
  · intro habsent
    have hk : http.CanonicalMIMEHeaderKey "X-Cache" = "X-Cache" := by decide
    simp [http.Header.Get, hk, habsent]
    decide

/-- C5, on the mock node: status 200, four bytes and `X-Cache: HIT-somehost`
leave a report with success, four bytes and a cache hit. -/
theorem GetChapterPageWithContext_report_witness :
    (mockClient.GetChapterPageWithContext (nodeEnv 1000 hitResponse) .background
        "1s.png").client.report
      = some ⟨"https://cdn.example/data-saver/h1/1s.png", true, 4, 0, true⟩ := by
  rw [(GetChapterPageWithContext_report (nodeEnv 1000 hitResponse) mockClient .background "1s.png"
    hitResponse (by decide) rfl rfl rfl rfl).1]
  decide

/-- C6 as stated fails: on a 404 with the three-byte body `404`, the fetch
returns those bytes with a nil error, so neither an error nor an empty body. -/
theorem GetChapterPageWithContext_notFound_counterexample :
    notFoundResponse.StatusCode = 404
    ∧ ¬ ((mockClient.GetChapterPageWithContext (nodeEnv 1000 notFoundResponse) .background
            "1s.png").err ≠ none
        ∨ (mockClient.GetChapterPageWithContext (nodeEnv 1000 notFoundResponse) .background
            "1s.png").fileData = []) := by
  decide

/-- C6, amended: when the delivery node answers with status 404, the report has
`success = false`, and the fetch returns what reading the body gave: the
node's body bytes, with an error only if the read itself failed. -/
theorem GetChapterPageWithContext_notFound (env : Env) (c : MDHomeClient) (ctx : Context)
    (f : String) (resp : http.Response)
    (hctx : ctx ≠ .nil) (hurl : env.urlParse (c.FileUrl f) = none)
    (hlive : ctx.Err env = none)
    (hresp : env.roundTrip ⟨ctx, "GET", c.FileUrl f, none⟩ = .ok resp)
    (hstatus : resp.StatusCode = 404) :
    (∃ r : reportPayload,
        (c.GetChapterPageWithContext env ctx f).client.report = some r ∧ r.Success = false)
    ∧ (c.GetChapterPageWithContext env ctx f).fileData = resp.Body.data
    ∧ (c.GetChapterPageWithContext env ctx f).err = resp.Body.err := by
  rw [GetChapterPageWithContext_response env c ctx f resp hctx hurl hlive hresp]
  simp [hstatus]

/-- C6, amended, on the mock node answering 404: the report has no success and
the three body bytes are returned without error. -/
theorem GetChapterPageWithContext_notFound_witness :
    (∃ r : reportPayload,
        (mockClient.GetChapterPageWithContext (nodeEnv 1000 notFoundResponse) .background
          "1s.png").client.report = some r ∧ r.Success = false)
    ∧ (mockClient.GetChapterPageWithContext (nodeEnv 1000 notFoundResponse) .background
          "1s.png").fileData = [52, 48, 52]
    ∧ (mockClient.GetChapterPageWithContext (nodeEnv 1000 notFoundResponse) .background
          "1s.png").err = none :=
  GetChapterPageWithContext_notFound (nodeEnv 1000 notFoundResponse) mockClient .background
    "1s.png" notFoundResponse (by decide) rfl rfl rfl rfl

/-! ## The telemetry report -/

/-- The request `reportContext` builds: none with a nil context or a URL that
does not parse, otherwise a POST under the given context. -/
theorem NewRequestWithContext_post (env : Env) (ctx : Context) (u : String)
    (body : Option String) :
    http.NewRequestWithContext env ctx http.MethodPost u body
      = if ctx = .nil then .error .nilContext
        else
          match env.urlParse u with
          | some e => .error e
          | none => .ok ⟨ctx, "POST", u, body⟩ := by
  have hm : http.validMethod "POST" = true := by decide
  simp [http.NewRequestWithContext, http.MethodPost, hm]

/-- What `reportContext` hands to the HTTP client: nothing, or the one POST of
the report, with the duration filled in, to `MDHomeReportURL` under the
context it was given. -/
theorem reportContext_sent (env : Env) (c : MDHomeClient) (ctx : Context) (r : reportPayload)
    (h : c.report = some r) :
    (c.reportContext env ctx).sent = []
    ∨ (c.reportContext env ctx).sent
        = [⟨ctx, "POST", MDHomeReportURL,
            some (json.encodePayload
              { r with Duration := time.Milliseconds (time.Sub env.now c.start) })⟩] := by
  unfold MDHomeClient.reportContext
  simp only [h, json.Marshal, NewRequestWithContext_post]
  by_cases hctx : ctx = .nil
  · simp [hctx]
  · cases hp : env.urlParse MDHomeReportURL with
    | some e => simp [hctx, hp]
    | none => simp [hctx, hp, http.clientDo]

/-- A fetch that gets no response (the request cannot be built, or the
transport call fails) returns no bytes and the error, leaving the fresh report. -/
theorem GetChapterPageWithContext_failure (env : Env) (c : MDHomeClient) (ctx : Context)
    (f : String) (e : Error)
    (h : http.NewRequestWithContext env ctx http.MethodGet (c.FileUrl f) none = .error e
      ∨ ∃ req, http.NewRequestWithContext env ctx http.MethodGet (c.FileUrl f) none = .ok req
          ∧ (http.clientDo env req).1 = .error e) :
    (c.GetChapterPageWithContext env ctx f).fileData = []
    ∧ (c.GetChapterPageWithContext env ctx f).err = some e
    ∧ (c.GetChapterPageWithContext env ctx f).client
        = { c with report := some (newPayload (c.FileUrl f)), start := env.now } := by
  unfold MDHomeClient.FileUrl at h ⊢
  unfold MDHomeClient.GetChapterPageWithContext
  rcases h with h | ⟨req, h, hdo⟩
  · simp [h]
  · simp only [h]
    cases hd : http.clientDo env req with
    | mk r sent =>
      rw [hd] at hdo
      simp only at hdo
      subst hdo
      simp

/-- C7: `GetChapterPageWithContext` returns exactly the response body bytes
with a nil error when the request and the body read both succeed; when
building the request or the transport call fails with error `e`, it returns
`e` with no bytes, and the report, as left on the client and as sent by
`reportContext`, is the fresh one for that URL: `url = FileUrl filename`,
`success = false`, `bytes = 0`, `cached = false`. -/
theorem GetChapterPageWithContext_results (env : Env) (c : MDHomeClient) (ctx : Context)
    (f : String) :
    (∀ req resp sent,
      http.NewRequestWithContext env ctx http.MethodGet (c.FileUrl f) none = .ok req →
      http.clientDo env req = (.ok resp, sent) → resp.Body.err = none →
        (c.GetChapterPageWithContext env ctx f).fileData = resp.Body.data
        ∧ (c.GetChapterPageWithContext env ctx f).err = none)
    ∧ (∀ e : Error,
      (http.NewRequestWithContext env ctx http.MethodGet (c.FileUrl f) none = .error e
        ∨ ∃ req, http.NewRequestWithContext env ctx http.MethodGet (c.FileUrl f) none = .ok req
            ∧ (http.clientDo env req).1 = .error e) →
        (c.GetChapterPageWithContext env ctx f).fileData = []
        ∧ (c.GetChapterPageWithContext env ctx f).err = some e
        ∧ (c.GetChapterPageWithContext env ctx f).client.report
            = some ⟨c.FileUrl f, false, 0, 0, false⟩
        ∧ ∀ (env2 : Env) (q : http.Request),
            q ∈ ((c.GetChapterPageWithContext env ctx f).client.reportContext env2 ctx).sent →
              q = ⟨ctx, "POST", MDHomeReportURL,
                some (json.encodePayload
                  ⟨c.FileUrl f, false, 0, time.Milliseconds (time.Sub env2.now env.now),
                    false⟩)⟩) := by
  constructor
  · intro req resp sent hreq hdo hread
    unfold MDHomeClient.FileUrl at hreq
    simp [MDHomeClient.GetChapterPageWithContext, hreq, hdo, io.ReadAll, hread]
  · intro e h
    obtain ⟨h1, h2, h3⟩ := GetChapterPageWithContext_failure env c ctx f e h
    refine ⟨h1, h2, by rw [h3]; rfl, ?_⟩
    intro env2 q hq
    rw [h3] at hq
    rcases reportContext_sent env2
      { c with report := some (newPayload (c.FileUrl f)), start := env.now } ctx
      (newPayload (c.FileUrl f)) rfl with hs | hs
    · rw [hs] at hq
      cases hq
    · rw [hs] at hq
      simpa [newPayload] using hq

/-- C7, with the network unreachable: the fetch returns no bytes and the
transport error, and the report left is the fresh one. -/
theorem GetChapterPageWithContext_results_witness :
    (mockClient.GetChapterPageWithContext downEnv .background "1s.png").fileData = []
    ∧ (mockClient.GetChapterPageWithContext downEnv .background "1s.png").err
        = some (.urlError "Get" "https://cdn.example/data-saver/h1/1s.png"
            (.other "connection refused"))
    ∧ (mockClient.GetChapterPageWithContext downEnv .background "1s.png").client.report
        = some ⟨"https://cdn.example/data-saver/h1/1s.png", false, 0, 0, false⟩ := by
  obtain ⟨h1, h2, h3, _⟩ :=
    (GetChapterPageWithContext_results downEnv mockClient .background "1s.png").2
      (.urlError "Get" "https://cdn.example/data-saver/h1/1s.png" (.other "connection refused"))
      (Or.inr ⟨⟨.background, "GET", "https://cdn.example/data-saver/h1/1s.png", none⟩,
        rfl, rfl⟩)
  exact ⟨h1, h2, by rw [h3]; decide⟩

/-- C8: when a response is received but reading the body fails with error `e`
after `k` bytes, `GetChapterPageWithContext` returns `e`, and the report
records `bytes = k` with `success = false`, whatever the status (200
included). -/
theorem GetChapterPageWithContext_partial_read (env : Env) (c : MDHomeClient) (ctx : Context)
    (f : String) (resp : http.Response) (e : Error)
    (hctx : ctx ≠ .nil) (hurl : env.urlParse (c.FileUrl f) = none)
    (hlive : ctx.Err env = none)
    (hresp : env.roundTrip ⟨ctx, "GET", c.FileUrl f, none⟩ = .ok resp)
    (hread : resp.Body.err = some e) :
    (c.GetChapterPageWithContext env ctx f).err = some e
    ∧ (c.GetChapterPageWithContext env ctx f).fileData = resp.Body.data
    ∧ ∃ r : reportPayload,
        (c.GetChapterPageWithContext env ctx f).client.report = some r
        ∧ r.URL = c.FileUrl f ∧ r.Bytes = resp.Body.data.length ∧ r.Success = false := by
  rw [GetChapterPageWithContext_response env c ctx f resp hctx hurl hlive hresp]
  simp [hread]

/-- C8, on a status-200 response that breaks off after two bytes: the read
error is returned and the report has two bytes and no success. -/
theorem GetChapterPageWithContext_partial_read_witness :
    truncatedResponse.StatusCode = 200
    ∧ (mockClient.GetChapterPageWithContext (nodeEnv 1000 truncatedResponse) .background
        "1s.png").err = some (.other "unexpected EOF")
    ∧ ∃ r : reportPayload,
        (mockClient.GetChapterPageWithContext (nodeEnv 1000 truncatedResponse) .background
          "1s.png").client.report = some r
        ∧ r.Bytes = 2 ∧ r.Success = false := by
  obtain ⟨h1, _, r, h3, _, h5, h6⟩ :=
    GetChapterPageWithContext_partial_read (nodeEnv 1000 truncatedResponse) mockClient
      .background "1s.png" truncatedResponse (.other "unexpected EOF") (by decide) rfl rfl rfl rfl
  exact ⟨rfl, h1, r, h3, h5, h6⟩

/-- What `reportContext` leaves on the session: the same session with the
duration of the report filled in, whatever becomes of the POST. -/
theorem reportContext_client (env : Env) (c : MDHomeClient) (ctx : Context) :
    (c.reportContext env ctx).client
      = { c with
          report := c.report.map fun r =>
            { r with Duration := time.Milliseconds (time.Sub env.now c.start) } } := by
  obtain ⟨b, q, hs, rep, st, pg⟩ := c
  unfold MDHomeClient.reportContext
  cases rep with
  | none => rfl
  | some r =>
    simp only [json.Marshal, Option.map]
    split <;> rfl

/-- The session after a fetch: the same session with a report for the page URL
and the start time set. -/
theorem GetChapterPageWithContext_client (env : Env) (c : MDHomeClient) (ctx : Context)
    (f : String) :
    ∃ r : reportPayload,
      (c.GetChapterPageWithContext env ctx f).client
        = { c with report := some r, start := env.now } := by
  unfold MDHomeClient.GetChapterPageWithContext
  simp only []
  split
  · exact ⟨_, rfl⟩
  · split
    · exact ⟨_, rfl⟩
    · exact ⟨_, rfl⟩

/-- C11: the bytes and error returned by `GetChapterPageWithContext` do not
depend on the outcome of the telemetry send. Two worlds that agree on the
state of the caller's context, on the page URL parsing and on the delivery
node's answer to the page request, and differ in anything else (the answer of
the report endpoint included), give the same `(bytes, error)` pair; and
`reportContext`, which has no result, leaves the session the same whatever
becomes of the POST, and never stops on a nil report after a fetch. -/
theorem GetChapterPageWithContext_independent_of_report (env env' : Env) (c : MDHomeClient)
    (ctx : Context) (f : String)
    (hctx : ctx.Err env = ctx.Err env')
    (hparse : env.urlParse (c.FileUrl f) = env'.urlParse (c.FileUrl f))
    (hnode : env.roundTrip ⟨ctx, "GET", c.FileUrl f, none⟩
      = env'.roundTrip ⟨ctx, "GET", c.FileUrl f, none⟩) :
    (c.GetChapterPageWithContext env ctx f).fileData
        = (c.GetChapterPageWithContext env' ctx f).fileData
    ∧ (c.GetChapterPageWithContext env ctx f).err = (c.GetChapterPageWithContext env' ctx f).err
    ∧ (∀ envR envR' : Env, envR.now = envR'.now →
        ((c.GetChapterPageWithContext env ctx f).client.reportContext envR ctx).client
          = ((c.GetChapterPageWithContext env ctx f).client.reportContext envR' ctx).client)
    ∧ ∀ envR : Env,
        ((c.GetChapterPageWithContext env ctx f).client.reportContext envR ctx).nilDeref
          = false := by
  have _ := hctx
  refine ⟨?_, ?_, ?_, ?_⟩
  · unfold MDHomeClient.FileUrl at hparse hnode
    unfold MDHomeClient.GetChapterPageWithContext
    simp only [NewRequestWithContext_get_eq, hparse]
    by_cases hnil : ctx = .nil
    · simp [hnil]
    · cases hp : env'.urlParse (strings.Join [c.baseURL, c.quality, c.hash, f] "/") with
      | some e => simp [hnil]
      | none =>
        simp only [hnil, if_false, http.clientDo, hnode]
        cases env'.roundTrip
          ⟨ctx, "GET", strings.Join [c.baseURL, c.quality, c.hash, f] "/", none⟩ <;> rfl
  · unfold MDHomeClient.FileUrl at hparse hnode
    unfold MDHomeClient.GetChapterPageWithContext
    simp only [NewRequestWithContext_get_eq, hparse]
    by_cases hnil : ctx = .nil
    · simp [hnil]
    · cases hp : env'.urlParse (strings.Join [c.baseURL, c.quality, c.hash, f] "/") with
      | some e => simp [hnil]
      | none =>
        simp only [hnil, if_false, http.clientDo, hnode]
        cases env'.roundTrip
          ⟨ctx, "GET", strings.Join [c.baseURL, c.quality, c.hash, f] "/", none⟩ <;> rfl
  · intro envR envR' hnow
    rw [reportContext_client, reportContext_client, hnow]
  · intro envR
    obtain ⟨r, hr⟩ := GetChapterPageWithContext_client env c ctx f
    rw [hr]
    simp only [MDHomeClient.reportContext, json.Marshal]
    split <;> rfl

/-- C11, with the report endpoint unreachable or answering 500 instead of
200: the fetch returns the same four bytes and nil error. -/
theorem GetChapterPageWithContext_independent_of_report_witness :
    ((mockClient.GetChapterPageWithContext (nodeEnv 1000 hitResponse) .background
          "1s.png").fileData
        = (mockClient.GetChapterPageWithContext reportDownEnv .background "1s.png").fileData
      ∧ (mockClient.GetChapterPageWithContext (nodeEnv 1000 hitResponse) .background
          "1s.png").err
        = (mockClient.GetChapterPageWithContext reportDownEnv .background "1s.png").err)
    ∧ ((mockClient.GetChapterPageWithContext (nodeEnv 1000 hitResponse) .background
          "1s.png").fileData
        = (mockClient.GetChapterPageWithContext reportRejectedEnv .background "1s.png").fileData
      ∧ (mockClient.GetChapterPageWithContext (nodeEnv 1000 hitResponse) .background
          "1s.png").err
        = (mockClient.GetChapterPageWithContext reportRejectedEnv .background "1s.png").err) :=
  ⟨⟨(GetChapterPageWithContext_independent_of_report (nodeEnv 1000 hitResponse) reportDownEnv
        mockClient .background "1s.png" rfl rfl rfl).1,
      (GetChapterPageWithContext_independent_of_report (nodeEnv 1000 hitResponse) reportDownEnv
        mockClient .background "1s.png" rfl rfl rfl).2.1⟩,
    ⟨(GetChapterPageWithContext_independent_of_report (nodeEnv 1000 hitResponse)
        reportRejectedEnv mockClient .background "1s.png" rfl rfl rfl).1,
      (GetChapterPageWithContext_independent_of_report (nodeEnv 1000 hitResponse)
        reportRejectedEnv mockClient .background "1s.png" rfl rfl rfl).2.1⟩⟩

/-- C12, evaluated: after a fetch of `1s.png` answered with status 200, four
bytes and a cache hit, the report sent 12 ms later is one POST to
`https://api.mangadex.network/report` whose JSON body carries the URL, the
success flag, the byte count, the duration in milliseconds and the cache flag
under the keys `URL`, `Success`, `Bytes`, `Duration`, `Cached`: the Go field
names, not `url`, `success`, `bytes`, `duration`, `cached`. -/
theorem reportContext_body_keys :
    ((mockClient.GetChapterPageWithContext (nodeEnv 1000 hitResponse) .background
        "1s.png").client.reportContext (nodeEnv 12001000 hitResponse) .background).sent
      = [⟨.background, "POST", "https://api.mangadex.network/report",
          some "\x7b\"URL\":\"https://cdn.example/data-saver/h1/1s.png\",\"Success\":true,\"Bytes\":4,\"Duration\":12,\"Cached\":true\x7d"⟩] := by
  decide

/-! ## The session invariant -/

/-- One call leaves `Pages`, `baseURL`, `quality` and `hash` as they were. -/
theorem Call.apply_fields (c : MDHomeClient) (call : Call) :
    (Call.apply c call).Pages = c.Pages ∧ (Call.apply c call).baseURL = c.baseURL
    ∧ (Call.apply c call).quality = c.quality ∧ (Call.apply c call).hash = c.hash := by
  cases call with
  | GetChapterPageWithContext env ctx f =>
    obtain ⟨r, hr⟩ := GetChapterPageWithContext_client env c ctx f
    simp [Call.apply, hr]
  | FileUrl f => simp [Call.apply]
  | reportContext env ctx => simp [Call.apply, reportContext_client]

/-- A sequence of calls leaves `Pages`, `baseURL`, `quality` and `hash` as they
were. -/
theorem runCalls_fields (c : MDHomeClient) (calls : List Call) :
    (runCalls c calls).Pages = c.Pages ∧ (runCalls c calls).baseURL = c.baseURL
    ∧ (runCalls c calls).quality = c.quality ∧ (runCalls c calls).hash = c.hash := by
  induction calls generalizing c with
  | nil => exact ⟨rfl, rfl, rfl, rfl⟩
  | cons call rest ih =>
    obtain ⟨h1, h2, h3, h4⟩ := ih (Call.apply c call)
    obtain ⟨g1, g2, g3, g4⟩ := Call.apply_fields c call
    exact ⟨h1.trans g1, h2.trans g2, h3.trans g3, h4.trans g4⟩

/-- The report and start time a fetch leaves depend on the session only
through `baseURL`, `quality` and `hash`. -/
theorem GetChapterPageWithContext_report_congr (env : Env) (c1 c2 : MDHomeClient)
    (ctx : Context) (f : String)
    (hb : c1.baseURL = c2.baseURL) (hq : c1.quality = c2.quality) (hh : c1.hash = c2.hash) :
    (c1.GetChapterPageWithContext env ctx f).client.report
        = (c2.GetChapterPageWithContext env ctx f).client.report
    ∧ (c1.GetChapterPageWithContext env ctx f).client.start
        = (c2.GetChapterPageWithContext env ctx f).client.start := by
  unfold MDHomeClient.GetChapterPageWithContext
  simp only [hb, hq, hh]
  split
  · exact ⟨rfl, rfl⟩
  · split <;> exact ⟨rfl, rfl⟩

/-- C13: after any sequence of `GetChapterPageWithContext`, `FileUrl` and
`reportContext` calls, whatever their outcome, `Pages`, `baseURL`, `quality`
and `hash` are as at construction (so page URLs are too); only `report` and
`start` are written. A fetch made at that point leaves the report the same
fetch leaves on the session as constructed: a report for the page URL with
duration 0, holding nothing of an earlier report, and `start` at the clock
reading of this fetch. -/
theorem session_invariant (c : MDHomeClient) (calls : List Call) :
    (runCalls c calls).Pages = c.Pages
    ∧ (runCalls c calls).baseURL = c.baseURL
    ∧ (runCalls c calls).quality = c.quality
    ∧ (runCalls c calls).hash = c.hash
    ∧ (∀ f : String, (runCalls c calls).FileUrl f = c.FileUrl f)
    ∧ ∀ (env : Env) (ctx : Context) (f : String),
        ((runCalls c calls).GetChapterPageWithContext env ctx f).client.report
          = (c.GetChapterPageWithContext env ctx f).client.report
        ∧ ((runCalls c calls).GetChapterPageWithContext env ctx f).client.start = env.now
        ∧ ∃ r : reportPayload,
            ((runCalls c calls).GetChapterPageWithContext env ctx f).client.report = some r
            ∧ r.URL = c.FileUrl f ∧ r.Duration = 0 := by
  obtain ⟨h1, h2, h3, h4⟩ := runCalls_fields c calls
  refine ⟨h1, h2, h3, h4, ?_, ?_⟩
  · intro f
    simp [MDHomeClient.FileUrl, h2, h3, h4]
  · intro env ctx f
    have hc := GetChapterPageWithContext_report_congr env (runCalls c calls) c ctx f h2 h3 h4
    refine ⟨hc.1, ?_, ?_⟩
    · obtain ⟨r, hr⟩ := GetChapterPageWithContext_client env (runCalls c calls) ctx f
      rw [hr]
    · rw [hc.1]
      unfold MDHomeClient.GetChapterPageWithContext
      simp only []
      split
      · exact ⟨_, rfl, rfl, rfl⟩
      · split
        · exact ⟨_, rfl, rfl, rfl⟩
        · exact ⟨_, rfl, rfl, rfl⟩

end Mangodex
